import Mathlib

/-!
Verification of the rpc-gate JSON-RPC 2.0 server core against its
specification.  The Go sources under pkg/types, pkg/server, pkg/dispatcher
and pkg/middleware are shallowly embedded: JSON documents are modelled by
an inductive `Json` type, Go struct decoding (encoding/json.Unmarshal) by
explicit decode functions, Go interface values by `Option`, Go errors by
`Option String`, and in-place mutation of the request context by explicit
state threading through handler and middleware functions.
-/

namespace RpcGate

/-- JSON documents.  Numbers are modelled as integers, which covers every
value the claims touch; Go decodes any JSON number into an id as a value
distinct from nil, which `Json.num` preserves. -/
inductive Json where
  | null
  | bool (b : Bool)
  | num (n : Int)
  | str (s : String)
  | arr (elems : List Json)
  | obj (fields : List (String × Json))


/-- RPCError from pkg/types: code, message and a data payload.  Every data
value the embedded call sites supply is a string, so the opaque Go
`interface\x7b\x7d` payload is modelled as `Option String`. -/
structure RPCError where
  Code : Int
  Message : String
  Data : Option String


/-- JSONRPCRequest from pkg/types.  `ID` is a Go `interface\x7b\x7d`:
`none` is Go nil (produced both by an absent id key and by an explicit
JSON null, exactly as encoding/json behaves). -/
structure JSONRPCRequest where
  JSONRPC : String
  Method : String
  Params : Option Json
  ID : Option Json


/-- JSONRPCResponse from pkg/types. -/
structure JSONRPCResponse where
  JSONRPC : String
  Result : Option Json
  Error : Option RPCError
  ID : Option Json


/-- Standard JSON-RPC 2.0 error codes (pkg/types). -/
def ParseErrorCode : Int := -32700

/-- Invalid-request error code. -/
def InvalidRequestCode : Int := -32600

/-- Method-not-found error code. -/
def MethodNotFoundCode : Int := -32601

/-- Invalid-params error code. -/
def InvalidParamsCode : Int := -32602

/-- Internal error code. -/
def InternalErrorCode : Int := -32603

/-- NewParseError from pkg/types. -/
def NewParseError (data : Option String) : RPCError :=
  { Code := ParseErrorCode, Message := "Parse error", Data := data }

/-- NewInvalidRequestError from pkg/types. -/
def NewInvalidRequestError (data : Option String) : RPCError :=
  { Code := InvalidRequestCode, Message := "Invalid Request", Data := data }

/-- NewMethodNotFoundError from pkg/types: the argument lands in Data. -/
def NewMethodNotFoundError (method : String) : RPCError :=
  { Code := MethodNotFoundCode, Message := "Method not found", Data := some method }

/-- NewInternalError from pkg/types. -/
def NewInternalError (data : Option String) : RPCError :=
  { Code := InternalErrorCode, Message := "Internal error", Data := data }

/-- IsNotification from pkg/types: `r.ID == nil`. -/
def JSONRPCRequest.IsNotification (r : JSONRPCRequest) : Bool :=
  r.ID.isNone

/-- Field lookup in a decoded JSON object.  encoding/json keeps the last
occurrence of a duplicated key, hence the recursion prefers the tail. -/
def lookupField : List (String × Json) → String → Option Json
  | [], _ => none
  | (k, v) :: rest, key =>
    match lookupField rest key with
    | some w => some w
    | none => if k = key then some v else none

/-- Decoding of one JSON value into a Go string struct field.  A present
string sets the field, JSON null leaves the zero value "" untouched, an
absent key likewise, and any other JSON type makes Unmarshal fail. -/
def decodeStringField : Option Json → Option String
  | none => some ""
  | some (.str s) => some s
  | some .null => some ""
  | some _ => none

/-- Decoding of the id field into a Go `interface\x7b\x7d`: always
succeeds; JSON null and an absent key both yield Go nil. -/
def decodeIdField : Option Json → Option Json
  | none => none
  | some .null => none
  | some v => some v

/-- Unmarshal of request bytes (already split into a JSON value) into a
JSONRPCRequest, following encoding/json: an object fills the fields with
per-field type checks, JSON null leaves the whole struct at its zero
value, and any other JSON shape is an unmarshal error (`none`). -/
def decodeRequest : Json → Option JSONRPCRequest
  | .obj fields =>
    match decodeStringField (lookupField fields "jsonrpc"),
          decodeStringField (lookupField fields "method") with
    | some j, some m =>
      some { JSONRPC := j, Method := m,
             Params := lookupField fields "params",
             ID := decodeIdField (lookupField fields "id") }
    | _, _ => none
  | .null => some { JSONRPC := "", Method := "", Params := none, ID := none }
  | _ => none

/-- Unmarshal of batch bytes into `[]json.RawMessage`.  The outer
`Option` is the parse of the raw bytes (`none` = malformed input); a JSON
array yields its elements, JSON null yields a nil slice (Go decodes null
into a slice as nil without error), anything else is an unmarshal error. -/
def decodeBatchRaw : Option Json → Option (List Json)
  | none => none
  | some (.arr elems) => some elems
  | some .null => some []
  | some _ => none

/-- Result of one handler or middleware invocation: the response, the Go
error, and the request context after in-place mutation (pkg/types Handler
returns the first two; the context travels by pointer in Go and is
threaded explicitly here). -/
structure HandlerOut (ρ : Type) where
  resp : Option JSONRPCResponse
  err : Option String
  ctx : ρ

/-- Handler from pkg/types, over an abstract request-context type. -/
def Handler (ρ : Type) : Type :=
  JSONRPCRequest → ρ → HandlerOut ρ

/-- Middleware from pkg/types: request, context, Next. -/
def Middleware (ρ : Type) : Type :=
  JSONRPCRequest → ρ → Handler ρ → HandlerOut ρ

/-- Chain from pkg/middleware. -/
structure Chain (ρ : Type) where
  middlewares : List (Middleware ρ)

/-- Recursive middleware execution (Chain.executeMiddleware): the Go code
walks an index through the slice; here the remaining suffix of the slice
is the argument. -/
def Chain.executeMiddleware {ρ : Type} :
    List (Middleware ρ) → JSONRPCRequest → ρ → Handler ρ → HandlerOut ρ
  | [], req, ctx, finalHandler => finalHandler req ctx
  | m :: rest, req, ctx, finalHandler =>
    m req ctx (fun r c => Chain.executeMiddleware rest r c finalHandler)

/-- Chain.Execute from pkg/middleware. -/
def Chain.Execute {ρ : Type} (c : Chain ρ) (req : JSONRPCRequest) (ctx : ρ)
    (finalHandler : Handler ρ) : HandlerOut ρ :=
  if c.middlewares.isEmpty then finalHandler req ctx
  else Chain.executeMiddleware c.middlewares req ctx finalHandler

/-- Go map lookup over the association-list model of
`map[string]Handler`. -/
def mapLookup {α : Type} : List (String × α) → String → Option α
  | [], _ => none
  | (k, v) :: rest, key => if k = key then some v else mapLookup rest key

/-- Dispatcher from pkg/dispatcher: the handler registry and the
middleware chain (the RWMutex guards concurrent access in Go and has no
content in this sequential model). -/
structure Dispatcher (ρ : Type) where
  handlers : List (String × Handler ρ)
  middlewareChain : Chain ρ

/-- RegisterHandler: last-writer-wins map write. -/
def Dispatcher.RegisterHandler {ρ : Type} (d : Dispatcher ρ) (method : String)
    (handler : Handler ρ) : Dispatcher ρ :=
  { d with handlers := (method, handler) :: d.handlers.filter (fun p => p.1 ≠ method) }

/-- UnregisterHandler: map delete. -/
def Dispatcher.UnregisterHandler {ρ : Type} (d : Dispatcher ρ) (method : String) :
    Dispatcher ρ :=
  { d with handlers := d.handlers.filter (fun p => p.1 ≠ method) }

/-- SetMiddleware from pkg/dispatcher. -/
def Dispatcher.SetMiddleware {ρ : Type} (d : Dispatcher ρ) (chain : Chain ρ) :
    Dispatcher ρ :=
  { d with middlewareChain := chain }

/-- GetRegisteredMethods from pkg/dispatcher (key snapshot). -/
def Dispatcher.GetRegisteredMethods {ρ : Type} (d : Dispatcher ρ) : List String :=
  d.handlers.map (fun p => p.1)

/-- HandlerCount from pkg/dispatcher. -/
def Dispatcher.HandlerCount {ρ : Type} (d : Dispatcher ρ) : Nat :=
  d.handlers.length

/-- Dispatch from pkg/dispatcher.  Go nil pointers for the request and the
context are `none`; the Go error return is `Option String`. -/
def Dispatcher.Dispatch {ρ : Type} (d : Dispatcher ρ)
    (request : Option JSONRPCRequest) (ctx : Option ρ) :
    Option JSONRPCResponse × Option String :=
  match request with
  | none => (none, some "request cannot be nil")
  | some req =>
    match ctx with
    | none => (none, some "context cannot be nil")
    | some c =>
      match mapLookup d.handlers req.Method with
      | none =>
        (some { JSONRPC := "2.0", Result := none,
                Error := some (NewMethodNotFoundError ("Method not found: " ++ req.Method)),
                ID := req.ID }, none)
      | some handler =>
        let out := d.middlewareChain.Execute req c handler
        (out.resp, out.err)

/-- Dispatch in state-transformer form: the same method body with the
receiver's mutable state threaded through every path.  The Go body only
ever reads `d.handlers` (under RLock), so each branch returns the
dispatcher unchanged. -/
def Dispatcher.DispatchSt {ρ : Type} (d : Dispatcher ρ)
    (request : Option JSONRPCRequest) (ctx : Option ρ) :
    Option JSONRPCResponse × Option String × Dispatcher ρ :=
  match request with
  | none => (none, some "request cannot be nil", d)
  | some req =>
    match ctx with
    | none => (none, some "context cannot be nil", d)
    | some c =>
      match mapLookup d.handlers req.Method with
      | none =>
        (some { JSONRPC := "2.0", Result := none,
                Error := some (NewMethodNotFoundError ("Method not found: " ++ req.Method)),
                ID := req.ID }, none, d)
      | some handler =>
        let out := d.middlewareChain.Execute req c handler
        (out.resp, out.err, d)

/-- HTTP request data the processor reads from an HTTP-borne call. -/
structure HTTPRequestInfo where
  Headers : List (String × String)
  UserAgent : String

/-- ProcessingContext from pkg/server. -/
structure ProcessingContext where
  Transport : String
  RemoteAddr : String
  HTTPRequest : Option HTTPRequestInfo
  ServiceName : String
  ServiceVersion : String

/-- Values stored in the request context Data bag
(`map[string]interface\x7b\x7d`): the embedded call sites store strings
and header maps. -/
inductive CtxValue where
  | str (s : String)
  | headers (hs : List (String × String))

/-- RequestContext from pkg/types, restricted to the fields the embedded
code reads or writes (clock and cancellation context carry no content in
this sequential model). -/
structure RequestContext where
  RequestID : String
  Transport : String
  RemoteAddr : String
  Data : List (String × CtxValue)
  HTTPRequest : Option HTTPRequestInfo

/-- WithValue from pkg/types: map write into the Data bag. -/
def RequestContext.WithValue (rc : RequestContext) (key : String) (value : CtxValue) :
    RequestContext :=
  { rc with Data := (key, value) :: rc.Data.filter (fun p => p.1 ≠ key) }

/-- NewRequestContext from pkg/types, with the generated request id
supplied by the caller (the Go code draws it from a global
crypto-random generator, modelled as an oracle argument). -/
def NewRequestContext (rid : String) (transport remoteAddr : String) : RequestContext :=
  { RequestID := rid, Transport := transport, RemoteAddr := remoteAddr,
    Data := [], HTTPRequest := none }

/-- createRequestContext from pkg/server.  Note that the Go code passes
`ctx.ServiceName` as the transport argument of NewRequestContext and then
stores the transport label in the Data bag. -/
def createRequestContext (rid : String) (req : JSONRPCRequest)
    (ctx : ProcessingContext) : RequestContext :=
  let requestCtx := NewRequestContext rid ctx.ServiceName ctx.RemoteAddr
  let requestCtx := requestCtx.WithValue "transport" (.str ctx.Transport)
  let requestCtx := requestCtx.WithValue "service_version" (.str ctx.ServiceVersion)
  let requestCtx := requestCtx.WithValue "method" (.str req.Method)
  match ctx.HTTPRequest with
  | none => requestCtx
  | some hr =>
    let requestCtx := requestCtx.WithValue "headers" (.headers hr.Headers)
    let requestCtx := requestCtx.WithValue "user_agent" (.str hr.UserAgent)
    { requestCtx with HTTPRequest := some hr }

/-- Character-list prefix test. -/
def isPrefixList : List Char → List Char → Bool
  | [], _ => true
  | _ :: _, [] => false
  | a :: as, b :: bs => a == b && isPrefixList as bs

/-- strings.HasPrefix from the Go standard library (argument order as in
Go: subject first, prefix second). -/
def stringHasPrefix (s p : String) : Bool :=
  isPrefixList p.data s.data

/-- validateRequest from pkg/server (JSONRPCProcessor). -/
def validateRequest (req : JSONRPCRequest) : Option RPCError :=
  if req.JSONRPC ≠ "2.0" then
    some (NewInvalidRequestError (some "JSON-RPC version must be '2.0'"))
  else if req.Method = "" then
    some (NewInvalidRequestError (some "Method is required and cannot be empty"))
  else if stringHasPrefix req.Method "rpc." then
    some (NewMethodNotFoundError (req.Method ++ " (reserved method prefix)"))
  else
    none

/-- processNotification from pkg/server: dispatch and discard both
results. -/
def processNotification (d : Dispatcher RequestContext) (rid : String)
    (req : JSONRPCRequest) (ctx : ProcessingContext) : Unit :=
  let requestCtx := createRequestContext rid req ctx
  let _ := d.Dispatch (some req) (some requestCtx)
  ()

/-- processRegularRequest from pkg/server.  A dispatcher error becomes an
internal-error response; a non-nil response gets its version and id
forced; a nil response with a nil error is returned as nil. -/
def processRegularRequest (d : Dispatcher RequestContext) (rid : String)
    (req : JSONRPCRequest) (ctx : ProcessingContext) : Option JSONRPCResponse :=
  let requestCtx := createRequestContext rid req ctx
  let dispatched := d.Dispatch (some req) (some requestCtx)
  match dispatched.2 with
  | some e =>
    some { JSONRPC := "2.0", Result := none,
           Error := some (NewInternalError (some ("Dispatcher error: " ++ e))),
           ID := req.ID }
  | none =>
    match dispatched.1 with
    | some response => some { response with JSONRPC := "2.0", ID := req.ID }
    | none => none

/-- ProcessSingleRequest from pkg/server.  `data` is the parse of the raw
bytes (`none` = bytes that are not JSON); the detailed Go error text
inside parse-error Data payloads is abstracted to a fixed string. -/
def ProcessSingleRequest (d : Dispatcher RequestContext) (rid : String)
    (data : Option Json) (ctx : ProcessingContext) : Option JSONRPCResponse :=
  match data.bind decodeRequest with
  | none =>
    some { JSONRPC := "2.0", Result := none,
           Error := some (NewParseError (some "Invalid JSON")), ID := none }
  | some request =>
    match validateRequest request with
    | some err =>
      some { JSONRPC := "2.0", Result := none, Error := some err, ID := request.ID }
    | none =>
      if request.IsNotification then
        let _ := processNotification d rid request ctx
        none
      else
        processRegularRequest d rid request ctx

/-- Result of ProcessBatchRequest, a Go `interface\x7b\x7d` that is nil, a
single response pointer, or a response slice. -/
inductive BatchResult where
  | nothing
  | single (r : JSONRPCResponse)
  | array (rs : List JSONRPCResponse)

/-- Loop body of ProcessBatchRequest: run each element through
ProcessSingleRequest (each call draws a fresh request id from the oracle,
indexed here) and append only the non-nil responses. -/
def collectBatchResponses (d : Dispatcher RequestContext) (rids : Nat → String)
    (ctx : ProcessingContext) : List Json → Nat → List JSONRPCResponse
  | [], _ => []
  | rawReq :: rest, i =>
    match ProcessSingleRequest d (rids i) (some rawReq) ctx with
    | some response => response :: collectBatchResponses d rids ctx rest (i + 1)
    | none => collectBatchResponses d rids ctx rest (i + 1)

/-- ProcessBatchRequest from pkg/server. -/
def ProcessBatchRequest (d : Dispatcher RequestContext) (rids : Nat → String)
    (data : Option Json) (ctx : ProcessingContext) : BatchResult :=
  match decodeBatchRaw data with
  | none =>
    .single { JSONRPC := "2.0", Result := none,
              Error := some (NewParseError (some "Invalid JSON in batch request")),
              ID := none }
  | some rawRequests =>
    if rawRequests.length = 0 then
      .single { JSONRPC := "2.0", Result := none,
                Error := some (NewInvalidRequestError (some "Batch request cannot be empty")),
                ID := none }
    else
      let responses := collectBatchResponses d rids ctx rawRequests 0
      if responses.length = 0 then .nothing
      else .array responses

/-- Filtering-relevant part of LoggingConfig from pkg/middleware (the
sink, format, buffering and metadata fields are not read by shouldLog). -/
structure LoggingConfig where
  Enabled : Bool
  LogSuccessOnly : Bool
  ExcludeMethods : List String
  IncludeMethods : List String

/-- Linear scan the Go for-loops over IncludeMethods and ExcludeMethods
perform. -/
def containsMethod : List String → String → Bool
  | [], _ => false
  | m :: rest, target => if m = target then true else containsMethod rest target

/-- shouldLog from pkg/middleware (Logger). -/
def Logger.shouldLog (config : LoggingConfig) (req : JSONRPCRequest)
    (success hasError : Bool) : Bool :=
  if !config.Enabled then false
  else if config.LogSuccessOnly && (!success || hasError) then false
  else if config.IncludeMethods.length > 0 && !(containsMethod config.IncludeMethods req.Method) then
    false
  else if containsMethod config.ExcludeMethods req.Method then false
  else true

/-- Observable events used to instrument the middleware chain: pre-work
and post-work of middleware number i, and the terminal handler run. -/
inductive TraceEv where
  | pre (i : Nat)
  | post (i : Nat)
  | run
deriving DecidableEq

/-- Middleware that records its pre-work, invokes Next, then records its
post-work, with the trace as the threaded request-context state. -/
def traceMW (i : Nat) : Middleware (List TraceEv) := fun req tr next =>
  let out := next req (tr ++ [TraceEv.pre i])
  { out with ctx := out.ctx ++ [TraceEv.post i] }

/-- Terminal handler that records its run. -/
def traceHandler : Handler (List TraceEv) := fun _ tr =>
  { resp := none, err := none, ctx := tr ++ [TraceEv.run] }

/-- Middleware that returns a fixed outcome without invoking Next. -/
def shortCircuitMW {ρ : Type} (resp : Option JSONRPCResponse) (e : Option String) :
    Middleware ρ := fun _ ctx _ => { resp := resp, err := e, ctx := ctx }

/-- Test for a batch element that decodes to a structurally valid
notification: decodes, passes validateRequest, and has a nil id. -/
def isValidNotificationElement (x : Json) : Bool :=
  match decodeRequest x with
  | some req => (validateRequest req).isNone && req.ID.isNone
  | none => false

/-- Sample processing context used by concrete witnesses. -/
def samplePctx : ProcessingContext :=
  { Transport := "HTTP", RemoteAddr := "127.0.0.1:9999", HTTPRequest := none,
    ServiceName := "streaming-server", ServiceVersion := "1.0.0" }

/-- Dispatcher with no handlers registered. -/
def emptyDispatcher : Dispatcher RequestContext :=
  { handlers := [], middlewareChain := { middlewares := [] } }

/-- Handler that returns a nil response and a nil error, which Go's
Handler signature permits. -/
def nilNilHandler : Handler RequestContext := fun _ c =>
  { resp := none, err := none, ctx := c }

/-- Dispatcher with the nil/nil handler registered for method "m". -/
def nilNilDispatcher : Dispatcher RequestContext :=
  { handlers := [("m", nilNilHandler)], middlewareChain := { middlewares := [] } }

/-- Handler that echoes a constant result with the request id. -/
def echoHandler : Handler RequestContext := fun req c =>
  { resp := some { JSONRPC := "2.0", Result := some (Json.str "ok"),
                   Error := none, ID := req.ID },
    err := none, ctx := c }

/-- Dispatcher with the echo handler registered for method "echo". -/
def echoDispatcher : Dispatcher RequestContext :=
  { handlers := [("echo", echoHandler)], middlewareChain := { middlewares := [] } }

/-- Parsed request object carrying an explicit null id. -/
def nullIdFields : List (String × Json) :=
  [("jsonrpc", Json.str "2.0"), ("method", Json.str "echo"), ("id", Json.null)]

/-- Request object that omits the id key but carries version "1.0". -/
def versionlessNotificationJson : Json :=
  Json.obj [("jsonrpc", Json.str "1.0"), ("method", Json.str "x")]

/-- Valid non-notification request object for method "m" with id 1. -/
def requestJsonM1 : Json :=
  Json.obj [("jsonrpc", Json.str "2.0"), ("method", Json.str "m"), ("id", Json.num 1)]

/-- Valid notification request object (no id key). -/
def validNotificationJson : Json :=
  Json.obj [("jsonrpc", Json.str "2.0"), ("method", Json.str "notify")]

/-- Dispatcher over a trivial context type, for dispatcher-level
witnesses. -/
def emptyUnitDispatcher : Dispatcher Unit :=
  { handlers := [], middlewareChain := { middlewares := [] } }

/-- Concrete request value for dispatcher-level witnesses. -/
def sampleUnitRequest : JSONRPCRequest :=
  { JSONRPC := "2.0", Method := "missing", Params := none, ID := some (Json.num 7) }

/-- Membership characterization of the Go for-loop scan. -/
theorem containsMethod_iff (l : List String) (m : String) :
    containsMethod l m = true ↔ m ∈ l := by
  induction l with
  | nil => simp [containsMethod]
  | cons a rest ih =>
    by_cases h : a = m
    · simp [containsMethod, h]
    · simp [containsMethod, h, ih, Ne.symm h]

/-- A decoded request that validates and has a nil id takes the
notification branch of ProcessSingleRequest and yields no response. -/
theorem processSingle_valid_notification_none
    (d : Dispatcher RequestContext) (rid : String) (pctx : ProcessingContext)
    (v : Json) (req : JSONRPCRequest)
    (hdec : decodeRequest v = some req)
    (hval : validateRequest req = none)
    (hid : req.ID = none) :
    ProcessSingleRequest d rid (some v) pctx = none := by
  simp [ProcessSingleRequest, Option.some_bind, hdec, hval,
        JSONRPCRequest.IsNotification, hid]

/-- The id of a successfully decoded object is exactly the decode of its
id key. -/
theorem decodeRequest_obj_id (fields : List (String × Json)) (req : JSONRPCRequest)
    (h : decodeRequest (Json.obj fields) = some req) :
    req.ID = decodeIdField (lookupField fields "id") := by
  cases hj : decodeStringField (lookupField fields "jsonrpc") with
  | none => simp [decodeRequest, hj] at h
  | some j =>
    cases hm : decodeStringField (lookupField fields "method") with
    | none => simp [decodeRequest, hj, hm] at h
    | some m =>
      simp [decodeRequest, hj, hm] at h
      rw [← h]

/-- The batch loop collects exactly the non-nil per-element responses, in
element order, with the id oracle consulted at the element's index. -/
theorem collectBatchResponses_eq_filterMap (d : Dispatcher RequestContext)
    (rids : Nat → String) (pctx : ProcessingContext) :
    ∀ (xs : List Json) (i : Nat),
      collectBatchResponses d rids pctx xs i =
        (List.enumFrom i xs).filterMap
          (fun p => ProcessSingleRequest d (rids p.1) (some p.2) pctx)
  | [], _ => rfl
  | x :: xs, i => by
    cases h : ProcessSingleRequest d (rids i) (some x) pctx with
    | none =>
      simp [collectBatchResponses, h, List.enumFrom, List.filterMap_cons,
            collectBatchResponses_eq_filterMap d rids pctx xs (i + 1)]
    | some r =>
      simp [collectBatchResponses, h, List.enumFrom, List.filterMap_cons,
            collectBatchResponses_eq_filterMap d rids pctx xs (i + 1)]

/-- If every element is response-free under every request id, the batch
loop collects nothing. -/
theorem collectBatchResponses_nil_of_all_none (d : Dispatcher RequestContext)
    (rids : Nat → String) (pctx : ProcessingContext) (xs : List Json)
    (h : ∀ x ∈ xs, ∀ rid, ProcessSingleRequest d rid (some x) pctx = none) :
    ∀ i, collectBatchResponses d rids pctx xs i = [] := by
  induction xs with
  | nil => intro i; rfl
  | cons x xs ih =>
    intro i
    have hx := h x (by simp) (rids i)
    simp [collectBatchResponses, hx,
          ih (fun y hy rid => h y (by simp [hy]) rid) (i + 1)]

/-- A structurally valid notification element produces no response from
ProcessSingleRequest. -/
theorem isValidNotificationElement_none (x : Json)
    (h : isValidNotificationElement x = true) :
    ∀ (d : Dispatcher RequestContext) (rid : String) (pctx : ProcessingContext),
      ProcessSingleRequest d rid (some x) pctx = none := by
  intro d rid pctx
  unfold isValidNotificationElement at h
  cases hdec : decodeRequest x with
  | none => rw [hdec] at h; simp at h
  | some req =>
    rw [hdec] at h
    simp only [Bool.and_eq_true, Option.isNone_iff_eq_none] at h
    exact processSingle_valid_notification_none d rid pctx x req hdec h.1 h.2

/-- Trace left by the instrumented chain: pre-work in list order, then
the handler, then post-work in reverse list order, appended to the
incoming trace. -/
theorem executeMiddleware_trace :
    ∀ (l : List Nat) (t : List TraceEv) (req : JSONRPCRequest),
      (Chain.executeMiddleware (l.map traceMW) req t traceHandler).ctx =
        t ++ l.map TraceEv.pre ++ [TraceEv.run] ++ (l.reverse.map TraceEv.post)
  | [], t, req => by simp [Chain.executeMiddleware, traceHandler]
  | i :: l, t, req => by
    have ih := executeMiddleware_trace l (t ++ [TraceEv.pre i]) req
    simp only [List.map_cons, Chain.executeMiddleware, traceMW, ih]
    simp

/-- Claim C1, refuted: a request object whose id key is present with
value null decodes to a nil Go interface id, so ProcessSingleRequest
treats it as a notification and suppresses the response even though the
method has a registered handler. -/
theorem explicit_null_id_counterexample :
    lookupField nullIdFields "id" = some Json.null ∧
    mapLookup echoDispatcher.handlers "echo" = some echoHandler ∧
    ProcessSingleRequest echoDispatcher "r1" (some (Json.obj nullIdFields)) samplePctx = none :=
  ⟨rfl, rfl, rfl⟩

/-- Claim C1 as amended: a parsed object carrying an explicit null id
decodes to a nil id, is classified as a notification, and (when it
validates) ProcessSingleRequest suppresses the response exactly as for an
absent id key. -/
theorem explicit_null_id_suppressed (fields : List (String × Json))
    (req : JSONRPCRequest) (d : Dispatcher RequestContext) (rid : String)
    (pctx : ProcessingContext)
    (hdec : decodeRequest (Json.obj fields) = some req)
    (hnull : lookupField fields "id" = some Json.null)
    (hval : validateRequest req = none) :
    req.ID = none ∧ req.IsNotification = true ∧
      ProcessSingleRequest d rid (some (Json.obj fields)) pctx = none := by
  have hid : req.ID = none := by
    have h2 := decodeRequest_obj_id fields req hdec
    rw [hnull] at h2
    simpa [decodeIdField] using h2
  exact ⟨hid, by simp [JSONRPCRequest.IsNotification, hid],
         processSingle_valid_notification_none d rid pctx _ req hdec hval hid⟩

/-- Concrete instance of the amended C1 statement. -/
theorem explicit_null_id_suppressed_witness :
    ({ JSONRPC := "2.0", Method := "echo", Params := none, ID := none } : JSONRPCRequest).ID = none ∧
    ({ JSONRPC := "2.0", Method := "echo", Params := none, ID := none } : JSONRPCRequest).IsNotification = true ∧
    ProcessSingleRequest echoDispatcher "r1" (some (Json.obj nullIdFields)) samplePctx = none :=
  explicit_null_id_suppressed nullIdFields
    { JSONRPC := "2.0", Method := "echo", Params := none, ID := none }
    echoDispatcher "r1" samplePctx rfl rfl rfl

/-- Claim C2, refuted: for a parseable, valid, non-notification request
whose registered handler returns a nil response and a nil error,
ProcessSingleRequest returns nil rather than a response envelope. -/
theorem regular_request_response_counterexample :
    decodeRequest requestJsonM1 =
      some { JSONRPC := "2.0", Method := "m", Params := none, ID := some (Json.num 1) } ∧
    validateRequest { JSONRPC := "2.0", Method := "m", Params := none, ID := some (Json.num 1) } = none ∧
    ({ JSONRPC := "2.0", Method := "m", Params := none, ID := some (Json.num 1) } : JSONRPCRequest).IsNotification = false ∧
    ProcessSingleRequest nilNilDispatcher "r1" (some requestJsonM1) samplePctx = none :=
  ⟨rfl, rfl, rfl, rfl⟩

/-- Claim C2 as amended: for a parseable, valid, non-notification
request, ProcessSingleRequest returns exactly one non-nil response
whenever the dispatcher call produces a response or a failure — the one
uncovered case is a registered handler chain returning nil response and
nil error. -/
theorem regular_request_unique_response (d : Dispatcher RequestContext)
    (rid : String) (pctx : ProcessingContext) (v : Json) (req : JSONRPCRequest)
    (hdec : decodeRequest v = some req)
    (hval : validateRequest req = none)
    (hnotif : req.IsNotification = false)
    (hdisp : (d.Dispatch (some req) (some (createRequestContext rid req pctx))).1.isSome = true ∨
             (d.Dispatch (some req) (some (createRequestContext rid req pctx))).2.isSome = true) :
    (ProcessSingleRequest d rid (some v) pctx).isSome = true := by
  simp only [ProcessSingleRequest, Option.some_bind, hdec, hval, hnotif,
             Bool.false_eq_true, if_false]
  unfold processRegularRequest
  rcases h2 : (d.Dispatch (some req) (some (createRequestContext rid req pctx))).2 with _ | e
  · rcases h1 : (d.Dispatch (some req) (some (createRequestContext rid req pctx))).1 with _ | r
    · rw [h1, h2] at hdisp
      simp at hdisp
    · simp [h1, h2]
  · simp [h2]

/-- Concrete instance of the amended C2 statement: an unregistered method
still yields exactly one response (method-not-found). -/
theorem regular_request_unique_response_witness :
    (ProcessSingleRequest emptyDispatcher "r1" (some requestJsonM1) samplePctx).isSome = true :=
  regular_request_unique_response emptyDispatcher "r1" samplePctx requestJsonM1
    { JSONRPC := "2.0", Method := "m", Params := none, ID := some (Json.num 1) }
    rfl rfl rfl (Or.inl rfl)

/-- Claim C3, refuted: an input that is valid JSON but not an array (here
the empty object) makes ProcessBatchRequest return a parse-error response
with code -32700, not an invalid-request response with code -32600 as
claimed. -/
theorem batch_non_array_counterexample :
    ProcessBatchRequest emptyDispatcher (fun _ => "r") (some (Json.obj [])) samplePctx =
      .single { JSONRPC := "2.0", Result := none,
                Error := some { Code := -32700, Message := "Parse error",
                                Data := some "Invalid JSON in batch request" },
                ID := none } ∧
    (-32700 : Int) ≠ -32600 :=
  ⟨rfl, by decide⟩

/-- Claim C3 as amended: an input that fails to decode as a raw-message
slice yields a single parse-error response (code -32700) with id null,
and an input decoding to an empty slice (empty JSON array, or JSON null
which Go decodes to a nil slice) yields a single invalid-request response
(code -32600) with id null. -/
theorem batch_parse_and_empty_errors (d : Dispatcher RequestContext)
    (rids : Nat → String) (pctx : ProcessingContext) (data : Option Json) :
    (decodeBatchRaw data = none →
      ProcessBatchRequest d rids data pctx =
        .single { JSONRPC := "2.0", Result := none,
                  Error := some (NewParseError (some "Invalid JSON in batch request")),
                  ID := none }) ∧
    (decodeBatchRaw data = some [] →
      ProcessBatchRequest d rids data pctx =
        .single { JSONRPC := "2.0", Result := none,
                  Error := some (NewInvalidRequestError (some "Batch request cannot be empty")),
                  ID := none }) := by
  constructor <;> intro h <;> simp [ProcessBatchRequest, h]

/-- Concrete instances of the amended C3 statement: malformed bytes and
the empty array. -/
theorem batch_parse_and_empty_errors_witness :
    ProcessBatchRequest emptyDispatcher (fun _ => "r") none samplePctx =
      .single { JSONRPC := "2.0", Result := none,
                Error := some (NewParseError (some "Invalid JSON in batch request")),
                ID := none } ∧
    ProcessBatchRequest emptyDispatcher (fun _ => "r") (some (Json.arr [])) samplePctx =
      .single { JSONRPC := "2.0", Result := none,
                Error := some (NewInvalidRequestError (some "Batch request cannot be empty")),
                ID := none } :=
  ⟨(batch_parse_and_empty_errors emptyDispatcher (fun _ => "r") samplePctx none).1 rfl,
   (batch_parse_and_empty_errors emptyDispatcher (fun _ => "r") samplePctx (some (Json.arr []))).2 rfl⟩

/-- Claim C4, refuted: a request that omits the id key but carries
protocol version "1.0" gets a non-nil invalid-request response (with id
null) from ProcessSingleRequest, because validation runs before the
notification check. -/
theorem notification_silence_counterexample :
    decodeRequest versionlessNotificationJson =
      some { JSONRPC := "1.0", Method := "x", Params := none, ID := none } ∧
    ProcessSingleRequest emptyDispatcher "r1" (some versionlessNotificationJson) samplePctx =
      some { JSONRPC := "2.0", Result := none,
             Error := some (NewInvalidRequestError (some "JSON-RPC version must be '2.0'")),
             ID := none } :=
  ⟨rfl, rfl⟩

/-- Claim C4 as amended: a request that omits the id key and passes
validation (version "2.0", non-empty method, no reserved prefix) makes
ProcessSingleRequest return nil; id-omitting requests failing validation
instead receive an error response. -/
theorem notification_requests_silent (d : Dispatcher RequestContext)
    (rid : String) (pctx : ProcessingContext) (v : Json) (req : JSONRPCRequest)
    (hdec : decodeRequest v = some req)
    (hid : req.ID = none)
    (hval : validateRequest req = none) :
    ProcessSingleRequest d rid (some v) pctx = none :=
  processSingle_valid_notification_none d rid pctx v req hdec hval hid

/-- Concrete instance of the amended C4 statement. -/
theorem notification_requests_silent_witness :
    ProcessSingleRequest echoDispatcher "r1" (some validNotificationJson) samplePctx = none :=
  notification_requests_silent echoDispatcher "r1" samplePctx validNotificationJson
    { JSONRPC := "2.0", Method := "notify", Params := none, ID := none }
    rfl rfl rfl

/-- Claim C5, refuted: a non-empty batch whose single element is a valid
non-notification request (so not every element is a notification) still
returns nil rather than a response array, because the registered handler
returns nil response and nil error. -/
theorem batch_collection_counterexample :
    isValidNotificationElement requestJsonM1 = false ∧
    ProcessBatchRequest nilNilDispatcher (fun _ => "r") (some (Json.arr [requestJsonM1])) samplePctx = .nothing :=
  ⟨rfl, rfl⟩

/-- Claim C5 as amended: over a non-empty parsed batch, if every element
is a structurally valid notification the result is nil; in general the
result is nil when no element produces a response and otherwise the array
of exactly the non-nil per-element responses in input order. -/
theorem batch_collection_characterization (d : Dispatcher RequestContext)
    (rids : Nat → String) (pctx : ProcessingContext) (xs : List Json)
    (hne : xs ≠ []) :
    ((∀ x ∈ xs, isValidNotificationElement x = true) →
        ProcessBatchRequest d rids (some (Json.arr xs)) pctx = .nothing) ∧
    ProcessBatchRequest d rids (some (Json.arr xs)) pctx =
      (if ((xs.enum).filterMap
            (fun p => ProcessSingleRequest d (rids p.1) (some p.2) pctx)).isEmpty
       then .nothing
       else .array ((xs.enum).filterMap
            (fun p => ProcessSingleRequest d (rids p.1) (some p.2) pctx))) := by
  have hlen : ¬(xs.length = 0) := by simpa [List.length_eq_zero] using hne
  constructor
  · intro hall
    have hcol : collectBatchResponses d rids pctx xs 0 = [] :=
      collectBatchResponses_nil_of_all_none d rids pctx xs
        (fun x hx rid => isValidNotificationElement_none x (hall x hx) d rid pctx) 0
    simp [ProcessBatchRequest, decodeBatchRaw, hlen, hcol]
  · simp only [ProcessBatchRequest, decodeBatchRaw]
    rw [if_neg hlen, collectBatchResponses_eq_filterMap d rids pctx xs 0]
    have henum : List.enumFrom 0 xs = xs.enum := rfl
    rw [henum]
    cases h : (xs.enum).filterMap
        (fun p => ProcessSingleRequest d (rids p.1) (some p.2) pctx) with
    | nil => simp
    | cons r rs => simp

/-- Concrete instances of the amended C5 statement: an all-notification
batch returns nil, and a batch with a non-notification element returns
the filtered response list. -/
theorem batch_collection_characterization_witness :
    ProcessBatchRequest emptyDispatcher (fun _ => "r") (some (Json.arr [validNotificationJson])) samplePctx = .nothing ∧
    ProcessBatchRequest emptyDispatcher (fun _ => "r") (some (Json.arr [requestJsonM1])) samplePctx =
      (if (([requestJsonM1].enum).filterMap
            (fun p => ProcessSingleRequest emptyDispatcher "r" (some p.2) samplePctx)).isEmpty
       then .nothing
       else .array (([requestJsonM1].enum).filterMap
            (fun p => ProcessSingleRequest emptyDispatcher "r" (some p.2) samplePctx))) :=
  ⟨(batch_collection_characterization emptyDispatcher (fun _ => "r") samplePctx
      [validNotificationJson] (by simp)).1
      (by intro x hx; rw [List.mem_singleton] at hx; rw [hx]; rfl),
   (batch_collection_characterization emptyDispatcher (fun _ => "r") samplePctx
      [requestJsonM1] (by simp)).2⟩

/-- Claim C6: instrumented middlewares observe pre-work in registration
order, then the handler, then post-work in reverse registration order;
and a middleware that returns without invoking Next short-circuits the
chain, its return value becoming the call's result. -/
theorem middleware_onion_order_and_short_circuit :
    (∀ (l : List Nat) (req : JSONRPCRequest),
        (Chain.Execute { middlewares := l.map traceMW } req [] traceHandler).ctx =
          l.map TraceEv.pre ++ [TraceEv.run] ++ (l.reverse.map TraceEv.post)) ∧
    (∀ (ρ : Type) (resp : Option JSONRPCResponse) (e : Option String)
        (rest : List (Middleware ρ)) (req : JSONRPCRequest) (c : ρ) (h : Handler ρ),
        Chain.Execute { middlewares := shortCircuitMW resp e :: rest } req c h =
          { resp := resp, err := e, ctx := c }) := by
  constructor
  · intro l req
    cases l with
    | nil => simp [Chain.Execute, traceHandler]
    | cons i l =>
      have hex : (((i :: l).map traceMW).isEmpty) = false := rfl
      simp only [Chain.Execute, hex, Bool.false_eq_true, if_false]
      simpa using executeMiddleware_trace (i :: l) [] req
  · intro ρ resp e rest req c h
    rfl

/-- Claim C7: shouldLog returns true exactly when logging is enabled, the
log-only-success filter passes, the include list (when non-empty)
contains the method, and the exclude list does not. -/
theorem shouldLog_characterization (config : LoggingConfig)
    (req : JSONRPCRequest) (success hasError : Bool) :
    Logger.shouldLog config req success hasError = true ↔
      (config.Enabled = true ∧
       ¬(config.LogSuccessOnly = true ∧ (success = false ∨ hasError = true)) ∧
       (config.IncludeMethods ≠ [] → req.Method ∈ config.IncludeMethods) ∧
       req.Method ∉ config.ExcludeMethods) := by
  obtain ⟨en, lso, ex, inc⟩ := config
  simp only [Logger.shouldLog]
  split_ifs with h1 h2 h3 h4
  · simp only [Bool.not_eq_eq_eq_not, Bool.not_true] at h1
    simp [h1]
  · simp only [Bool.and_eq_true, Bool.or_eq_true, Bool.not_eq_eq_eq_not,
               Bool.not_true] at h2
    simp only [Bool.false_eq_true, false_iff]
    intro hc
    exact hc.2.1 ⟨h2.1, by simpa [Bool.not_eq_true'] using h2.2⟩
  · simp only [Bool.and_eq_true, decide_eq_true_eq, Bool.not_eq_eq_eq_not,
               Bool.not_true, List.length_pos] at h3
    simp only [Bool.false_eq_true, false_iff]
    intro hc
    have := hc.2.2.1 h3.1
    rw [← containsMethod_iff] at this
    rw [h3.2] at this
    cases this
  · simp only [Bool.false_eq_true, false_iff]
    intro hc
    exact hc.2.2.2 ((containsMethod_iff ex req.Method).1 h4)
  · simp only [Bool.not_eq_eq_eq_not, Bool.not_true, Bool.not_eq_false] at h1
    simp only [Bool.and_eq_true, Bool.or_eq_true, Bool.not_eq_eq_eq_not,
               Bool.not_true, not_and] at h2
    simp only [Bool.and_eq_true, decide_eq_true_eq, Bool.not_eq_eq_eq_not,
               Bool.not_true, List.length_pos, not_and] at h3
    refine iff_of_true rfl ⟨h1, ?_, ?_, fun hm => h4 ((containsMethod_iff ex req.Method).2 hm)⟩
    · rintro ⟨hlso, hor⟩
      have hx := h2 hlso
      rcases hor with h | h <;> simp [h] at hx
    · intro hinc
      have hx := h3 hinc
      rw [← containsMethod_iff]
      simpa [Bool.not_eq_false] using hx

/-- Claim C8: Dispatch returns a nil response and a Go error on a nil
request or nil context, and on a lookup miss returns, with no error, a
method-not-found response (code -32601) echoing the request id. -/
theorem dispatch_guards_and_method_not_found :
    (∀ (ρ : Type) (d : Dispatcher ρ) (ctx : Option ρ),
        d.Dispatch none ctx = (none, some "request cannot be nil")) ∧
    (∀ (ρ : Type) (d : Dispatcher ρ) (req : JSONRPCRequest),
        d.Dispatch (some req) none = (none, some "context cannot be nil")) ∧
    (∀ (ρ : Type) (d : Dispatcher ρ) (req : JSONRPCRequest) (c : ρ),
        mapLookup d.handlers req.Method = none →
        d.Dispatch (some req) (some c) =
          (some { JSONRPC := "2.0", Result := none,
                  Error := some { Code := -32601, Message := "Method not found",
                                  Data := some ("Method not found: " ++ req.Method) },
                  ID := req.ID }, none)) := by
  refine ⟨fun ρ d ctx => rfl, fun ρ d req => rfl, fun ρ d req c h => ?_⟩
  simp [Dispatcher.Dispatch, h, NewMethodNotFoundError, MethodNotFoundCode]

/-- Concrete instance of the C8 lookup-miss case. -/
theorem dispatch_guards_and_method_not_found_witness :
    emptyUnitDispatcher.Dispatch (some sampleUnitRequest) (some ()) =
      (some { JSONRPC := "2.0", Result := none,
              Error := some { Code := -32601, Message := "Method not found",
                              Data := some "Method not found: missing" },
              ID := some (Json.num 7) }, none) :=
  dispatch_guards_and_method_not_found.2.2 Unit emptyUnitDispatcher sampleUnitRequest () rfl

/-- Claim C9: ProcessBatchRequest never returns an empty response array:
its result is nil, a single response that carries an error, or a
non-empty array of responses. -/
theorem batch_result_shape (d : Dispatcher RequestContext) (rids : Nat → String)
    (data : Option Json) (pctx : ProcessingContext) :
    ProcessBatchRequest d rids data pctx = .nothing ∨
    (∃ r, ProcessBatchRequest d rids data pctx = .single r ∧ r.Error.isSome = true) ∨
    (∃ rs, rs ≠ [] ∧ ProcessBatchRequest d rids data pctx = .array rs) := by
  cases hbr : decodeBatchRaw data with
  | none =>
    refine Or.inr (Or.inl ⟨{ JSONRPC := "2.0", Result := none, Error := some (NewParseError (some "Invalid JSON in batch request")), ID := none }, ?_, rfl⟩)
    simp [ProcessBatchRequest, hbr]
  | some raws =>
    by_cases h0 : raws.length = 0
    · refine Or.inr (Or.inl ⟨{ JSONRPC := "2.0", Result := none, Error := some (NewInvalidRequestError (some "Batch request cannot be empty")), ID := none }, ?_, rfl⟩)
      simp [ProcessBatchRequest, hbr, h0]
    · by_cases hr0 : (collectBatchResponses d rids pctx raws 0).length = 0
      · exact Or.inl (by simp [ProcessBatchRequest, hbr, h0, hr0])
      · refine Or.inr (Or.inr ⟨collectBatchResponses d rids pctx raws 0, ?_,
          by simp [ProcessBatchRequest, hbr, h0, hr0]⟩)
        intro hnil
        exact hr0 (by simp [hnil])

/-- Claim C10: Dispatch threads the dispatcher state through every path
unchanged — handlers and middlewares in this model cannot reach the
registry, matching the claim's proviso that they do not call
RegisterHandler or UnregisterHandler — so GetRegisteredMethods and
HandlerCount observe the same registry after Dispatch as before, while
the response and error agree with Dispatch. -/
theorem dispatch_preserves_registry (ρ : Type) (d : Dispatcher ρ)
    (request : Option JSONRPCRequest) (ctx : Option ρ) :
    ((d.DispatchSt request ctx).2.2.GetRegisteredMethods = d.GetRegisteredMethods ∧
     (d.DispatchSt request ctx).2.2.HandlerCount = d.HandlerCount) ∧
    ((d.DispatchSt request ctx).1, (d.DispatchSt request ctx).2.1) =
      d.Dispatch request ctx := by
  cases request with
  | none => exact ⟨⟨rfl, rfl⟩, rfl⟩
  | some req =>
    cases ctx with
    | none => exact ⟨⟨rfl, rfl⟩, rfl⟩
    | some c =>
      cases h : mapLookup d.handlers req.Method <;>
        simp [Dispatcher.DispatchSt, Dispatcher.Dispatch, h]

end RpcGate
